import Mathlib

/-!
Verification of the argument resolution and validation engine of
`advanced_arg_parser.py` (class `ArgumentParser` plus the module-level
`UnicodeEliminator`), as a shallow embedding in Lean 4.

Strings are modelled as lists of Unicode code points (`Str := List Nat`).
Python runtime values flowing through the engine are modelled by `Value`;
Python floats are modelled as rationals (the engine only parses and
re-prints decimal literals, it performs no float arithmetic).

External collaborators (the `argparse` standard-library tokenizer and
`difflib`) are embedded by their documented, deterministic behaviour at
exactly the points the engine invokes them, since several contract claims
are decided there.  The optional libraries `ftfy`, `emoji` and `unidecode`
are absent (`*_AVAILABLE = False`), so `UnicodeEliminator.eliminate_unicode`
runs its pure in-repository fallback path, which is embedded in full.
-/

namespace ArgParser

/-- Strings as lists of Unicode code points. -/
abbrev Str := List Nat

/-- Convert a Lean string literal to the code-point representation. -/
def ofStr (s : String) : Str := s.data.map Char.toNat

/-- ASCII lowering of one code point, as `str.lower` acts on ASCII; the
engine only compares lowered names/tokens against pure-ASCII keyword
tables, so the full Unicode case table is not needed (non-ASCII code
points are kept unchanged). -/
def pyLowerC (c : Nat) : Nat := if 65 ≤ c ∧ c ≤ 90 then c + 32 else c

/-- `str.lower()` on the modelled alphabet. -/
def pyLower (s : Str) : Str := s.map pyLowerC

/-- ASCII raising of one code point (`str.upper`), used for env-var names. -/
def pyUpperC (c : Nat) : Nat := if 97 ≤ c ∧ c ≤ 122 then c - 32 else c

/-- `str.upper()` on the modelled alphabet. -/
def pyUpper (s : Str) : Str := s.map pyUpperC

/-- The code points matched by Python's `\s` (and stripped by `str.strip`):
ASCII whitespace, the C1/Unicode separator characters. -/
def isWsC (c : Nat) : Bool :=
  (9 ≤ c && c ≤ 13) || c == 32 || (28 ≤ c && c ≤ 31) || c == 0x85 || c == 0xA0 ||
  c == 0x1680 || (0x2000 ≤ c && c ≤ 0x200A) || c == 0x2028 || c == 0x2029 ||
  c == 0x202F || c == 0x205F || c == 0x3000

/-- The character class of `UnicodeEliminator.emoji_pattern`, transcribed
range by range from the compiled regex. -/
def isEmojiC (c : Nat) : Bool :=
  (0x1F600 ≤ c && c ≤ 0x1F64F) || (0x1F300 ≤ c && c ≤ 0x1F5FF) ||
  (0x1F680 ≤ c && c ≤ 0x1F6FF) || (0x1F1E0 ≤ c && c ≤ 0x1F1FF) ||
  (0x2700 ≤ c && c ≤ 0x27BF) || (0x1F926 ≤ c && c ≤ 0x1F937) ||
  (0x10000 ≤ c && c ≤ 0x10FFFF) || (0x2640 ≤ c && c ≤ 0x2642) ||
  (0x2600 ≤ c && c ≤ 0x2B55) || c == 0x200D || c == 0x23CF || c == 0x23E9 ||
  c == 0x231A || c == 0xFE0F || c == 0x3030

/-- NFKD decomposition of one code point, as used by
`unicodedata.normalize("NFKD", text)`.  ASCII code points are
NFKD-invariant (a fact of Unicode normalization).  A few representative
non-ASCII decompositions are listed; the remaining table entries are
elided and such code points are kept unchanged — the very next step of
`eliminate_unicode` encodes to ASCII with `errors="ignore"`, so elided
entries only affect which ASCII residue survives from non-ASCII input,
which no claim depends on. -/
def nfkdC (c : Nat) : List Nat :=
  if c < 128 then [c]
  else if c = 0xE9 then [0x65, 0x301]      -- é → e + combining acute
  else if c = 0xE8 then [0x65, 0x300]      -- è → e + combining grave
  else if c = 0xFC then [0x75, 0x308]      -- ü → u + combining diaeresis
  else if c = 0x2460 then [0x31]           -- ① → 1
  else if c = 0xFB01 then [0x66, 0x69]     -- ﬁ → f i
  else if c = 0xA0 then [0x20]             -- NBSP → space
  else [c]

/-- One pass of `re.sub(r"\s+", " ", text)`: every maximal run of
whitespace becomes a single space.  The flag records whether we are
inside a whitespace run whose replacement space was already emitted. -/
def collapseAux : Bool → Str → Str
  | _, [] => []
  | inRun, c :: rest =>
    if isWsC c then
      if inRun then collapseAux true rest
      else 32 :: collapseAux true rest
    else c :: collapseAux false rest

/-- `re.sub(r"\s+", " ", text)`. -/
def collapseWs (s : Str) : Str := collapseAux false s

/-- `str.strip()`: drop leading and trailing whitespace. -/
def pyStrip (s : Str) : Str :=
  ((s.dropWhile isWsC).reverse.dropWhile isWsC).reverse

/-- `UnicodeEliminator.eliminate_unicode` on a string, with the optional
libraries absent: (1) `ftfy` unavailable — no-op; (2) `emoji` unavailable —
`emoji_pattern.sub("", text)`; (3) `unidecode` unavailable, `aggressive` —
NFKD then `encode("ascii","ignore")`; (4) collapse whitespace and strip. -/
def eliminateUnicode (s : Str) : Str :=
  let t1 := s.filter (fun c => !(isEmojiC c))
  let t2 := (t1.flatMap nfkdC).filter (fun c => decide (c < 128))
  pyStrip (collapseWs t2)

/-! ### Python runtime values -/

/-- The Python types flowing through the engine (the value of an
argument definition's `type` entry, and `type(value)` of runtime values). -/
inductive PyType where
  | int | float | bool | str | list | noneType
deriving DecidableEq, Repr

/-- Python runtime values reaching the engine: ints, floats (as exact
decimals/rationals), bools, strings, decoded-config lists, and `None`. -/
inductive Value where
  | int (n : Int)
  | float (q : Rat)
  | bool (b : Bool)
  | str (s : Str)
  | list (vs : List Value)
  | none

/-- `type(v)` of a runtime value. -/
def pyTypeOf : Value → PyType
  | .int _ => .int
  | .float _ => .float
  | .bool _ => .bool
  | .str _ => .str
  | .list _ => .list
  | .none => .noneType

/-- `t.__name__` as printed in the validation error messages. -/
def typeName : PyType → Str
  | .int => ofStr "int"
  | .float => ofStr "float"
  | .bool => ofStr "bool"
  | .str => ofStr "str"
  | .list => ofStr "list"
  | .noneType => ofStr "NoneType"

/-- `isinstance(v, t)` on the modelled types (`bool` is a subclass of
`int` in Python, so a bool is an instance of `int`). -/
def pyIsInstance (v : Value) (t : PyType) : Bool :=
  pyTypeOf v == t || (t == .int && pyTypeOf v == .bool)

/-! ### Numeric parsing (`int(str)` / `float(str)`) -/

/-- Decimal digit test. -/
def isDigitC (c : Nat) : Bool := 48 ≤ c && c ≤ 57

/-- Value of a nonempty all-digit string. -/
def digitsVal (s : Str) : Option Nat :=
  if s = [] then Option.none
  else if s.all isDigitC then some (s.foldl (fun a c => a * 10 + (c - 48)) 0)
  else Option.none

/-- `int(s)` for a string: strip whitespace, optional sign, decimal
digits.  (Underscore separators and non-ASCII digits, which CPython also
accepts, are elided — no engine path or claim supplies them.) -/
def pyIntOfStr (s : Str) : Option Int :=
  match pyStrip s with
  | 43 :: rest => (digitsVal rest).map Int.ofNat
  | 45 :: rest => (digitsVal rest).map (fun n => -(Int.ofNat n))
  | t => (digitsVal t).map Int.ofNat

/-- Digit-fold value of a digit string (no emptiness check). -/
def digitsNat (s : Str) : Nat := s.foldl (fun a c => a * 10 + (c - 48)) 0

/-- `float(s)` for a string: strip, optional sign, decimal mantissa with
optional fraction, optional exponent; the value is assembled with exact
integer arithmetic as `± mantissa · 10^(exponent - fraction digits)`.
(`inf`/`nan` spellings are elided — no engine path or claim supplies
them.) -/
def pyFloatOfStr (s : Str) : Option Rat :=
  let t := pyStrip s
  let (neg, t) : Bool × Str :=
    match t with
    | 43 :: r => (false, r)
    | 45 :: r => (true, r)
    | r => (false, r)
  let ip := t.takeWhile isDigitC
  let t := t.dropWhile isDigitC
  let (fp, t) : Str × Str :=
    match t with
    | 46 :: r => (r.takeWhile isDigitC, r.dropWhile isDigitC)
    | r => ([], r)
  let (ex, t) : Option Int × Str :=
    match t with
    | 101 :: r | 69 :: r =>
      match r with
      | 43 :: r2 => ((digitsVal r2).map Int.ofNat, [])
      | 45 :: r2 => ((digitsVal r2).map (fun n => -(Int.ofNat n)), [])
      | r2 => ((digitsVal r2).map Int.ofNat, [])
    | r => (some 0, r)
  if ip = [] ∧ fp = [] then Option.none
  else match ex, t with
    | some e, [] =>
      let m : Int := Int.ofNat (digitsNat ip * 10 ^ fp.length + digitsNat fp)
      let m := if neg then -m else m
      let scale : Int := e - Int.ofNat fp.length
      some (if 0 ≤ scale then mkRat (m * Int.ofNat (10 ^ scale.toNat)) 1
            else mkRat m (10 ^ (-scale).toNat))
    | _, _ => Option.none

/-- Decimal representation of an integer (`str(n)`). -/
def intRepr (n : Int) : Str := ofStr (toString n)

/-- Smallest number of decimal places (searched up to 30) that makes the
rational integral; floats reaching the engine come from finite decimal
parses, for which this always exists. -/
def fracDigitCount (q : Rat) : Option Nat :=
  (List.range 31).find? (fun k => (Int.ofNat (10 ^ k) * q.num) % (q.den : Int) == 0)

/-- `str(f)` for a float: shortest plain decimal form, matching CPython's
repr on the finite decimals that occur here (`3.5 ↦ "3.5"`, `3 ↦ "3.0"`). -/
def floatRepr (q : Rat) : Str :=
  match fracDigitCount q with
  | some 0 => intRepr q.num ++ ofStr ".0"
  | some (k + 1) =>
    let n := (Int.ofNat (10 ^ (k + 1)) * q.num) / (q.den : Int)
    let ds := ofStr (toString n.natAbs)
    let ds := if ds.length < k + 2 then List.replicate (k + 2 - ds.length) 48 ++ ds else ds
    (if n < 0 then [45] else []) ++ ds.take (ds.length - (k + 1)) ++ [46] ++
      ds.drop (ds.length - (k + 1))
  | Option.none => ofStr "0.0"

/-- Truncation toward zero, as `int(float)` behaves. -/
def truncRat (q : Rat) : Int := q.num.tdiv (q.den : Int)

mutual

/-- `repr(v)` as used for list elements inside `str(list)`: strings get
quotes (escape sequences elided), other values print like `str`. -/
def pyRepr : Value → Str
  | .str s => 39 :: s ++ [39]
  | .int n => intRepr n
  | .float q => floatRepr q
  | .bool b => if b then ofStr "True" else ofStr "False"
  | .none => ofStr "None"
  | .list vs => 91 :: pyReprList vs ++ [93]

/-- Comma-separated reprs of list elements. -/
def pyReprList : List Value → Str
  | [] => []
  | [v] => pyRepr v
  | v :: rest => pyRepr v ++ ofStr ", " ++ pyReprList rest

end

/-- `str(v)` for each modelled runtime value. -/
def pyStrOf : Value → Str
  | .str s => s
  | .int n => intRepr n
  | .float q => floatRepr q
  | .bool b => if b then ofStr "True" else ofStr "False"
  | .none => ofStr "None"
  | .list vs => 91 :: pyReprList vs ++ [93]

/-- `bool(v)`: Python truthiness (never raises). -/
def pyTruthy : Value → Bool
  | .int n => n != 0
  | .float q => q.num != 0
  | .bool b => b
  | .str s => !s.isEmpty
  | .list vs => !vs.isEmpty
  | .none => false

/-- `t(v)` — the conversion attempted by `_validate_args` and by
`argparse`'s type machinery; `Option.none` models a raised
`ValueError`/`TypeError`. -/
def pyConvert (t : PyType) (v : Value) : Option Value :=
  match t with
  | .int =>
    match v with
    | .int n => some (.int n)
    | .bool b => some (.int (if b then 1 else 0))
    | .float q => some (.int (truncRat q))
    | .str s => (pyIntOfStr s).map Value.int
    | _ => Option.none
  | .float =>
    match v with
    | .int n => some (.float (mkRat n 1))
    | .bool b => some (.float (mkRat (if b then 1 else 0) 1))
    | .float q => some (.float q)
    | .str s => (pyFloatOfStr s).map Value.float
    | _ => Option.none
  | .bool => some (.bool (pyTruthy v))
  | .str => some (.str (pyStrOf v))
  | .list =>
    match v with
    | .str s => some (.list (s.map (fun c => Value.str [c])))
    | .list vs => some (.list vs)
    | _ => Option.none
  | .noneType => Option.none

/-- `v is None` (the guard `value is not None` in `_validate_args`). -/
def isNoneV : Value → Bool
  | .none => true
  | _ => false

/-! ### Argument definitions (`ArgumentParser.add_argument`) -/

/-- Boolean substring containment, `pat in s` on Python strings. -/
def strIn (pat s : Str) : Bool := decide (pat <:+: s)

/-- The keyword tables of `_infer_type`, in source order. -/
def intKeywords : List Str :=
  [ofStr "count", ofStr "number", ofStr "size", ofStr "port", ofStr "timeout"]

/-- Float-inferring keywords. -/
def floatKeywords : List Str := [ofStr "rate", ofStr "factor", ofStr "ratio"]

/-- Boolean-inferring keywords. -/
def boolKeywords : List Str :=
  [ofStr "enable", ofStr "disable", ofStr "verbose", ofStr "quiet", ofStr "debug"]

/-- String-inferring keywords. -/
def strKeywords : List Str :=
  [ofStr "file", ofStr "path", ofStr "dir", ofStr "output", ofStr "input"]

/-- `ArgumentParser._infer_type(name, default_value)`: the type of a
non-`None` default wins; otherwise ordered keyword tables over the
lowercased name, first match wins, `str` as fallback. -/
def inferTypeFn (name : Str) (defaultValue : Value) : PyType :=
  match defaultValue with
  | .none =>
    let nameLower := pyLower name
    if intKeywords.any (fun w => strIn w nameLower) then .int
    else if floatKeywords.any (fun w => strIn w nameLower) then .float
    else if boolKeywords.any (fun w => strIn w nameLower) then .bool
    else if strKeywords.any (fun w => strIn w nameLower) then .str
    else .str
  | v => pyTypeOf v

/-- `ArgumentParser._get_smart_default(arg_type)`:
`{int: 0, float: 0.0, bool: False, str: "", list: [], dict: {}}.get(arg_type, None)`
(the `dict` entry is unreachable for the modelled types; `NoneType` maps to
the `.get` fallback `None`). -/
def smartDefault : PyType → Value
  | .int => .int 0
  | .float => .float 0
  | .bool => .bool false
  | .str => .str []
  | .list => .list []
  | .noneType => .none

/-- The `required_patterns` table of `_is_required_arg`. -/
def requiredKeywords : List Str :=
  [ofStr "input", ofStr "file", ofStr "source", ofStr "target",
   ofStr "destination", ofStr "host", ofStr "server", ofStr "database",
   ofStr "username", ofStr "password"]

/-- `ArgumentParser._is_required_arg(name)`. -/
def isRequiredArg (name : Str) : Bool :=
  requiredKeywords.any (fun w => strIn w (pyLower name))

/-- Prepend `--` unless already present (`add_argument`'s normalization). -/
def normName (name : Str) : Str :=
  if name.take 2 = ofStr "--" then name else ofStr "--" ++ name

/-- `name[2:].upper().replace('-', '_')`, prefixed — the derived
environment-variable name. -/
def defaultEnvVar (pfx name : Str) : Str :=
  pfx ++ [95] ++ (pyUpper (name.drop 2)).map (fun c => if c = 45 then 95 else c)

/-- One stored argument definition (the entry of `args_definitions`):
name (with `--`), resolved `type`, `default` (`Option.none` = key absent
from the kwargs dict), `required`, `env_var`, and the opaque validator
callback (`Option Str` result: `some msg` models a raised exception with
message `msg`, `none` models acceptance). -/
structure ArgDef where
  name : Str
  type : PyType
  default : Option Value
  required : Bool
  envVar : Str
  validator : Option (Value → Option Str)

/-- The keyword arguments a caller may pass to `add_argument`.  Each field
is `Option` because the source distinguishes present from absent keys;
`default = some .none` models an explicitly passed `default=None`. -/
structure Kwargs where
  type : Option PyType
  default : Option Value
  required : Option Bool
  envVar : Option Str
  validator : Option (Value → Option Str)

/-- An empty kwargs dict. -/
def noKwargs : Kwargs := ⟨Option.none, Option.none, Option.none, Option.none, Option.none⟩

/-- The definition `add_argument(name, **kwargs)` stores: smart type
detection, smart (zero-value) default for non-bool types, smart required
detection, derived env-var name. -/
def buildDef (pfx : Str) (name : Str) (kw : Kwargs) : ArgDef :=
  let name := normName name
  let ty := match kw.type with
    | some t => t
    | Option.none => inferTypeFn name (kw.default.getD Value.none)
  let dflt : Option Value := match kw.default with
    | some v => some v
    | Option.none => if ty = PyType.bool then Option.none else some (smartDefault ty)
  let req := kw.required.getD (isRequiredArg name)
  let ev := kw.envVar.getD (defaultEnvVar pfx name)
  ⟨name, ty, dflt, req, ev, kw.validator⟩

/-- Registry insert: `self.args_definitions[name] = kwargs` — redefinition
overwrites in place (dicts keep the original position), otherwise append. -/
def storeDef (defs : List ArgDef) (d : ArgDef) : List ArgDef :=
  match defs with
  | [] => [d]
  | e :: rest => if e.name = d.name then d :: rest else e :: storeDef rest d

/-- `ArgumentParser.add_argument`. -/
def addArgument (pfx : Str) (defs : List ArgDef) (name : Str) (kw : Kwargs) :
    List ArgDef :=
  storeDef defs (buildDef pfx name kw)

/-! ### Tier loading and default merging (`parse_args`, lines 393-404) -/

/-- `value.lower() in ("true", "1", "yes", "on")` — the boolean coercion of
a raw environment token in `_load_env_defaults`. -/
def coerceBoolTok (s : Str) : Bool :=
  [ofStr "true", ofStr "1", ofStr "yes", ofStr "on"].contains (pyLower s)

/-- The per-type conversion applied to a present environment value;
`Option.none` models the swallowed `ValueError` (tier contributes
nothing). -/
def envConvert (t : PyType) (v : Str) : Option Value :=
  match t with
  | .bool => some (.bool (coerceBoolTok v))
  | .int => (pyIntOfStr v).map Value.int
  | .float => (pyFloatOfStr v).map Value.float
  | _ => some (.str v)

/-- `ArgumentParser._load_env_defaults`: for each definition whose env var
is set, coerce and record under the definition's name; unconvertible
values are skipped. -/
def loadEnvDefaults (defs : List ArgDef) (env : List (Str × Str)) :
    List (Str × Value) :=
  match defs with
  | [] => []
  | d :: rest =>
    match List.lookup d.envVar env with
    | some raw =>
      match envConvert d.type raw with
      | some w => (d.name, w) :: loadEnvDefaults rest env
      | Option.none => loadEnvDefaults rest env
    | Option.none => loadEnvDefaults rest env

/-- The merge in `parse_args`: start from the declared default
(`arg_config.get("default")`, i.e. `None` when absent), override by a
config-file value, then by an environment value. -/
def mergedDefault (d : ArgDef) (config envd : List (Str × Value)) : Value :=
  let v0 := d.default.getD Value.none
  let v1 := (List.lookup d.name config).getD v0
  (List.lookup d.name envd).getD v1

/-! ### The argparse layer (`parser.parse_args(args)`) -/

/-- What the command-line tokenizer supplies for one flag: a token string
(`--flag value`) or bare presence (a `store_true` boolean flag). -/
inductive CliVal where
  | token (s : Str)
  | presence

/-- The fatal errors `argparse` raises as `SystemExit` (exit code 2):
an unconvertible value for a typed option, a missing value, or — reported
collectively after parsing — absent `required` options. -/
inductive ArgparseErr where
  | badValue (flag : Str) (raw : Str)
  | expectedOneArg (flag : Str)
  | missingRequired (flags : List Str)

/-- `args.<attr>` lookup key: `arg_name[2:].replace('-', '_')`. -/
def attrName (name : Str) : Str :=
  (name.drop 2).map (fun c => if c = 45 then 95 else c)

/-- A parsed namespace: attribute name to value. -/
abbrev Namespace := List (Str × Value)

/-- `setattr`: replace in place or append. -/
def nsSet (ns : Namespace) (k : Str) (v : Value) : Namespace :=
  match ns with
  | [] => [(k, v)]
  | (k', v') :: rest => if k' = k then (k, v) :: rest else (k', v') :: nsSet rest k v

/-- `getattr(args, attr, None)`. -/
def nsGet (ns : Namespace) (k : Str) : Value :=
  (List.lookup k ns).getD Value.none

/-- The conversion `argparse` applies to an option's string via the
registered `type` callable (identity for `store_true` booleans, whose
`type` was popped). -/
def convTok (t : PyType) (s : Str) : Option Value := pyConvert t (.str s)

/-- `argparse` first records every option's (merged) default on the
namespace. -/
def setDefaults (defs : List ArgDef) (config envd : List (Str × Value)) :
    Namespace :=
  match defs with
  | [] => []
  | d :: rest =>
    nsSet (setDefaults rest config envd) (attrName d.name) (mergedDefault d config envd)

/-- Consume the supplied command-line occurrences: a boolean flag stores
`True`; other flags convert their token with the type callable, an
unconvertible token aborting with exit code 2. -/
def applyCli (defs : List ArgDef) (cli : List (Str × CliVal)) (ns : Namespace) :
    Except ArgparseErr Namespace :=
  match defs with
  | [] => .ok ns
  | d :: rest =>
    match List.lookup d.name cli with
    | Option.none => applyCli rest cli ns
    | some cv =>
      if d.type = PyType.bool then
        applyCli rest cli (nsSet ns (attrName d.name) (.bool true))
      else
        match cv with
        | .presence => .error (.expectedOneArg d.name)
        | .token s =>
          match convTok d.type s with
          | some v => applyCli rest cli (nsSet ns (attrName d.name) v)
          | Option.none => .error (.badValue d.name s)

/-- After consuming argv, `argparse` walks the unseen actions: `required`
ones are collected for a collective missing-required error; for the rest a
*string* default is converted through the type callable (conversion
failure aborts immediately).  Returns the updated namespace and the
missing-required names in definition order. -/
def finishDefaults (defs : List ArgDef) (cli : List (Str × CliVal))
    (config envd : List (Str × Value)) (ns : Namespace) :
    Except ArgparseErr (Namespace × List Str) :=
  match defs with
  | [] => .ok (ns, [])
  | d :: rest =>
    match List.lookup d.name cli with
    | some _ => finishDefaults rest cli config envd ns
    | Option.none =>
      if d.required then
        match finishDefaults rest cli config envd ns with
        | .ok (ns', miss) => .ok (ns', d.name :: miss)
        | .error e => .error e
      else
        match mergedDefault d config envd with
        | .str s =>
          if d.type = PyType.bool then finishDefaults rest cli config envd ns
          else
            match convTok d.type s with
            | some v => finishDefaults rest cli config envd (nsSet ns (attrName d.name) v)
            | Option.none => .error (.badValue d.name s)
        | _ => finishDefaults rest cli config envd ns

/-! ### Validation (`ArgumentParser._validate_args`) -/

/-- The Unicode elimination `_validate_args` applies to a string value
before any further check (when `unicode_safe` is set). -/
def normPre (usafe : Bool) (v : Value) : Value :=
  match v with
  | .str s => if usafe then .str (eliminateUnicode s) else .str s
  | w => w

/-- The type-validation step of one `_validate_args` iteration: skip a
`None` value, accept a matching `isinstance`, otherwise attempt the one
conversion retry — writing the converted value back to the namespace on
success and recording the `"Expected …, got …"` message on failure. -/
def typeRetry (d : ArgDef) (v : Value) (a : Str) (ns : Namespace) :
    Namespace × List Str :=
  if isNoneV v then (ns, [])
  else if pyIsInstance v d.type then (ns, [])
  else
    match pyConvert d.type v with
    | some c => (nsSet ns a c, [])
    | Option.none =>
      (ns, [d.name ++ ofStr ": Expected " ++ typeName d.type ++
            ofStr ", got " ++ typeName (pyTypeOf v)])

/-- One loop iteration of `_validate_args` for a single definition:
Unicode-eliminate a string value (writing it back), run `typeRetry`, then
invoke the validator on the local `value` — which the retry did *not*
rebind, so the validator sees the pre-retry value.  Returns the updated
namespace, this definition's error messages in emission order, and the
validator-call trace (one entry per invocation, recording the argument
passed). -/
def validateOne (usafe : Bool) (d : ArgDef) (ns : Namespace) :
    Namespace × List Str × List (Str × Value) :=
  let a := attrName d.name
  let v := normPre usafe (nsGet ns a)
  let ns1 := match nsGet ns a with
    | .str _ => if usafe then nsSet ns a v else ns
    | _ => ns
  let p := typeRetry d v a ns1
  match d.validator with
  | some f =>
    match f v with
    | some msg => (p.1, p.2 ++ [d.name ++ ofStr ": " ++ msg], [(d.name, v)])
    | Option.none => (p.1, p.2, [(d.name, v)])
  | Option.none => (p.1, p.2, [])

/-- The full `_validate_args` loop: every definition is processed
regardless of earlier failures, errors accumulating in order. -/
def validateReport (usafe : Bool) (defs : List ArgDef) (ns : Namespace) :
    Namespace × List Str × List (Str × Value) :=
  match defs with
  | [] => (ns, [], [])
  | d :: rest =>
    let r1 := validateOne usafe d ns
    let r2 := validateReport usafe rest r1.1
    (r2.1, r1.2.1 ++ r2.2.1, r1.2.2 ++ r2.2.2)

/-- `_validate_args` as called: returns normally when no errors were
collected, and otherwise prints the aggregated report and calls
`sys.exit(1)` — modelled as `Except.error` carrying the report. -/
def validateArgsRun (usafe : Bool) (defs : List ArgDef) (ns : Namespace) :
    Except (List Str) Namespace :=
  let r := validateReport usafe defs ns
  if r.2.1 = [] then .ok r.1 else .error r.2.1

/-! ### `ArgumentParser.parse_args` -/

/-- Outcome of one `parse_args` call: a namespace; a `SystemExit` raised
by the argparse layer (exit code 2, re-raised after printing
suggestions); or the `sys.exit(1)` issued by `_validate_args` itself,
carrying the aggregated error report. -/
inductive ParseResult where
  | ok (ns : Namespace)
  | tokenizerExit (e : ArgparseErr)
  | validationExit (report : List Str)

/-- Unicode elimination over the raw argv tokens (applied before any
parsing when `unicode_safe` is set). -/
def elimCliVal (usafe : Bool) : CliVal → CliVal
  | .token s => .token (if usafe then eliminateUnicode s else s)
  | .presence => .presence

/-- `ArgumentParser.parse_args`: eliminate Unicode from argv, load config
and environment tiers, merge them over declared defaults, hand everything
to argparse (defaults, command-line overrides, required enforcement), and
finally run `_validate_args`.  `config` is the decoded config-file mapping
(decoding is external and best-effort), `env` the raw environment
snapshot, `cli` the tokenized command-line occurrences. -/
def parseArgs (usafe : Bool) (defs : List ArgDef)
    (config : List (Str × Value)) (env : List (Str × Str))
    (cli : List (Str × CliVal)) : ParseResult :=
  let cli := cli.map (fun p => (p.1, elimCliVal usafe p.2))
  let envd := loadEnvDefaults defs env
  let ns0 := setDefaults defs config envd
  match applyCli defs cli ns0 with
  | .error e => .tokenizerExit e
  | .ok ns1 =>
    match finishDefaults defs cli config envd ns1 with
    | .error e => .tokenizerExit e
    | .ok (ns2, missing) =>
      if missing = [] then
        match validateArgsRun usafe defs ns2 with
        | .ok ns3 => .ok ns3
        | .error report => .validationExit report
      else .tokenizerExit (.missingRequired missing)

/-! ### The suggestion engine (`_find_similar_args` via `difflib`)

`difflib.get_close_matches(word, possibilities, n=3, cutoff=0.6)` scores
each candidate with `SequenceMatcher.ratio()` (twice the total size of the
Ratcliff-Obershelp matching blocks over the summed lengths), keeps the
candidates scoring at least the cutoff, and returns the top `n` sorted by
descending `(score, candidate)` (the `heapq.nlargest` tuple order).  The
strings involved are far below the 200-character autojunk threshold and no
junk predicate is supplied, so the junk machinery is inert. -/

/-- `j2len.get(j - 1, 0)` on the association list of the DP row. -/
def j2get (m : List (Nat × Nat)) (j : Nat) : Nat :=
  ((m.find? (fun p => p.1 == j)).map (fun p => p.2)).getD 0

/-- One row of `SequenceMatcher.find_longest_match`'s dynamic program:
scan the positions `j` of `b` holding the current character of `a`,
extending diagonal run lengths, tracking the first-found longest block. -/
def flmRow (benum : List (Nat × Nat)) (ai : Nat) (j2len : List (Nat × Nat))
    (i : Nat) (best : Nat × Nat × Nat) :
    List (Nat × Nat) × (Nat × Nat × Nat) :=
  benum.foldl
    (fun acc jc =>
      if jc.2 == ai then
        let k := (if jc.1 == 0 then 0 else j2get j2len (jc.1 - 1)) + 1
        let best' := if k > acc.2.2.2 then (i + 1 - k, jc.1 + 1 - k, k) else acc.2
        (acc.1 ++ [(jc.1, k)], best')
      else acc)
    (([] : List (Nat × Nat)), best)

/-- The full dynamic program of `find_longest_match` (junk-free), giving
`(besti, bestj, bestsize)`. -/
def flmDP (a b : Str) : Nat × Nat × Nat :=
  (a.enum.foldl
    (fun st ic => flmRow b.enum ic.2 st.1 ic.1 st.2)
    (([] : List (Nat × Nat)), ((0, 0, 0) : Nat × Nat × Nat))).2

/-- The leftward extension loop of `find_longest_match` over matching
non-junk characters (a no-op after the maximal DP block, kept for
faithfulness; fuel bounds the walk). -/
def extendL (a b : Str) : Nat → Nat × Nat × Nat → Nat × Nat × Nat
  | 0, st => st
  | fuel + 1, (bi, bj, bs) =>
    if 0 < bi ∧ 0 < bj then
      match a.get? (bi - 1), b.get? (bj - 1) with
      | some x, some y =>
        if x == y then extendL a b fuel (bi - 1, bj - 1, bs + 1) else (bi, bj, bs)
      | _, _ => (bi, bj, bs)
    else (bi, bj, bs)

/-- The rightward extension loop of `find_longest_match`. -/
def extendR (a b : Str) : Nat → Nat × Nat × Nat → Nat × Nat × Nat
  | 0, st => st
  | fuel + 1, (bi, bj, bs) =>
    match a.get? (bi + bs), b.get? (bj + bs) with
    | some x, some y =>
      if x == y then extendR a b fuel (bi, bj, bs + 1) else (bi, bj, bs)
    | _, _ => (bi, bj, bs)

/-- `SequenceMatcher.find_longest_match` over whole strings. -/
def findLongestMatch (a b : Str) : Nat × Nat × Nat :=
  extendR a b (a.length + b.length) (extendL a b (a.length + b.length) (flmDP a b))

/-- Total size of all matching blocks (the `matches` count in
`SequenceMatcher.ratio`): recursively take the longest match and recurse
on the parts left and right of it.  Fuel decreases on each recursion; the
initial supply `|a| + |b| + 1` is ample since each level removes at least
one character from the window. -/
def smTotalF : Nat → Str → Str → Nat
  | 0, _, _ => 0
  | fuel + 1, a, b =>
    let m := findLongestMatch a b
    if m.2.2 == 0 then 0
    else
      smTotalF fuel (a.take m.1) (b.take m.2.1) + m.2.2 +
        smTotalF fuel (a.drop (m.1 + m.2.2)) (b.drop (m.2.1 + m.2.2))

/-- `sum(block sizes)` for two whole strings. -/
def smTotal (a b : Str) : Nat := smTotalF (a.length + b.length + 1) a b

/-- `SequenceMatcher.ratio()` as an exact rational
(`2.0 * matches / total`, and `1.0` when both strings are empty). -/
def simScore (a b : Str) : Rat :=
  let t := a.length + b.length
  if t = 0 then mkRat 1 1 else mkRat (2 * smTotal a b : Nat) t

/-- The cutoff filter of `get_close_matches` (`ratio >= 0.6`). -/
def cutoffOK (word c : Str) : Bool := decide (mkRat 3 5 ≤ simScore word c)

/-- The `heapq.nlargest` key: the `(score, candidate)` tuple, compared
lexicographically (Python compares the strings code point by code point
on score ties). -/
def sugKey (word c : Str) : Rat ×ₗ List Nat := toLex (simScore word c, c)

/-- `x` sorts no later than `y` in the descending `nlargest` order. -/
def sugLe (word : Str) (x y : Str) : Prop := sugKey word y ≤ sugKey word x

instance sugLeDecidable (word : Str) : DecidableRel (sugLe word) :=
  fun x y => inferInstanceAs (Decidable (sugKey word y ≤ sugKey word x))

instance sugLeTotal (word : Str) : IsTotal Str (sugLe word) :=
  ⟨fun x y => (le_total (sugKey word x) (sugKey word y)).symm⟩

instance sugLeTrans (word : Str) : IsTrans Str (sugLe word) :=
  ⟨fun _ _ _ hxy hyz => le_trans hyz hxy⟩

/-- `difflib.get_close_matches(word, possibilities, n=3, cutoff=0.6)`. -/
def getCloseMatches (word : Str) (possibilities : List Str) : List Str :=
  ((possibilities.filter (cutoffOK word)).insertionSort (sugLe word)).take 3

/-- Strip a leading `--`. -/
def stripDashes (s : Str) : Str :=
  if s.take 2 = ofStr "--" then s.drop 2 else s

/-- `ArgumentParser._find_similar_args(arg, candidates)`: strip the flag
marker from both sides, fuzzy-match, reattach `--`. -/
def findSimilarArgs (arg : Str) (cands : List Str) : List Str :=
  (getCloseMatches (stripDashes arg) (cands.map stripDashes)).map
    (fun m => ofStr "--" ++ m)

/-! ### Characterizations used by the theorems below -/

/-- Every whitespace code point of `s` is the plain space. -/
def wsOnly32 (s : Str) : Prop := ∀ c ∈ s, isWsC c = true → c = 32

/-- All code points are ASCII. -/
def allAscii (s : Str) : Prop := ∀ c ∈ s, c < 128

/-- No two adjacent whitespace code points. -/
def noAdjWs (s : Str) : Prop :=
  s.Chain' (fun a b => ¬(isWsC a = true ∧ isWsC b = true))

/-- The first code point, if any, is not whitespace. -/
def headOkWs (s : Str) : Prop := ∀ c, s.head? = some c → isWsC c = false

/-- The last code point, if any, is not whitespace. -/
def lastOkWs (s : Str) : Prop := ∀ c, s.getLast? = some c → isWsC c = false

/-! ## Theorems -/

/-- Bridge: a keyword table hitting a (lowered) name, in `Bool` and `Prop`. -/
theorem strIn_any_iff (ws : List Str) (s : Str) :
    (ws.any (fun w => strIn w s) = true) ↔ ∃ w ∈ ws, w <:+: s := by
  simp [strIn, List.any_eq_true]

/-- C6 counterexample: a boolean flag with no declared default that no
tier supplies does not resolve to `False` — the namespace holds `None`, a
third state beyond the two booleans (`--debug-mode` infers Boolean from
its name, `add_argument` assigns booleans no smart default, and argparse's
`store_true` leaves the explicitly passed `default=None` in place). -/
theorem c6_bool_third_state_cex :
    parseArgs true [buildDef [] (ofStr "debug-mode") noKwargs] [] [] [] =
      .ok [(ofStr "debug_mode", Value.none)] ∧
    Value.none ≠ Value.bool false ∧ Value.none ≠ Value.bool true :=
  ⟨rfl, fun h => Value.noConfusion h, fun h => Value.noConfusion h⟩

/-- C6 (amended): coercion of a raw string token to boolean yields true
exactly when the lowercased token is in {"true","1","yes","on"} — in
particular "TRUE", "1", "yes", "On" coerce to true and "false", "",
"nope" to false — and this is exactly the conversion the environment tier
applies to boolean-typed definitions.  (An *absent* boolean flag with no
declared default, however, resolves to `None`, not false: see the
counterexample.) -/
theorem c6_truthy_token_set :
    (∀ s : Str, coerceBoolTok s = true ↔
      pyLower s ∈ [ofStr "true", ofStr "1", ofStr "yes", ofStr "on"]) ∧
    (∀ v : Str, envConvert PyType.bool v = some (Value.bool (coerceBoolTok v))) ∧
    coerceBoolTok (ofStr "TRUE") = true ∧
    coerceBoolTok (ofStr "1") = true ∧
    coerceBoolTok (ofStr "yes") = true ∧
    coerceBoolTok (ofStr "On") = true ∧
    coerceBoolTok (ofStr "false") = false ∧
    coerceBoolTok (ofStr "") = false ∧
    coerceBoolTok (ofStr "nope") = false := by
  refine ⟨fun s => ?_, fun _ => rfl, rfl, rfl, rfl, rfl, rfl, rfl, rfl⟩
  simp [coerceBoolTok]

/-- C3 counterexample: with no declared type but a supplied (string)
default, a flag named `max-count` does *not* infer Integer — `_infer_type`
returns the runtime type of the default before consulting the name
tables, so inference is not a pure function of the name string. -/
theorem c3_default_overrides_name_cex :
    (buildDef [] (ofStr "max-count")
      ⟨Option.none, some (Value.str (ofStr "hello")), Option.none,
       Option.none, Option.none⟩).type = PyType.str ∧
    PyType.str ≠ PyType.int :=
  ⟨rfl, fun h => PyType.noConfusion h⟩

/-- C3 (amended): when neither a type nor a (non-None) default is
supplied, the inferred type is a pure function of the name via the
ordered keyword tables with first match winning ({count,…} → Integer,
else {rate,…} → Float, else {enable,…} → Boolean, else String — the
{file,…} table and the fallback both yield String); `max-count`,
`enable-cache`, `output-path`, `growth-rate` infer Integer, Boolean,
String, Float.  When a non-None default is supplied, the inferred type is
instead the runtime type of that default. -/
theorem c3_inference_amended :
    (∀ name : Str,
      ((∃ w ∈ intKeywords, w <:+: pyLower name) →
        inferTypeFn name Value.none = PyType.int) ∧
      (¬(∃ w ∈ intKeywords, w <:+: pyLower name) →
        (∃ w ∈ floatKeywords, w <:+: pyLower name) →
        inferTypeFn name Value.none = PyType.float) ∧
      (¬(∃ w ∈ intKeywords, w <:+: pyLower name) →
        ¬(∃ w ∈ floatKeywords, w <:+: pyLower name) →
        (∃ w ∈ boolKeywords, w <:+: pyLower name) →
        inferTypeFn name Value.none = PyType.bool) ∧
      (¬(∃ w ∈ intKeywords, w <:+: pyLower name) →
        ¬(∃ w ∈ floatKeywords, w <:+: pyLower name) →
        ¬(∃ w ∈ boolKeywords, w <:+: pyLower name) →
        inferTypeFn name Value.none = PyType.str)) ∧
    (∀ (name : Str) (v : Value), v ≠ Value.none →
      inferTypeFn name v = pyTypeOf v) ∧
    (buildDef [] (ofStr "max-count") noKwargs).type = PyType.int ∧
    (buildDef [] (ofStr "enable-cache") noKwargs).type = PyType.bool ∧
    (buildDef [] (ofStr "output-path") noKwargs).type = PyType.str ∧
    (buildDef [] (ofStr "growth-rate") noKwargs).type = PyType.float := by
  refine ⟨fun name => ?_, fun name v hv => ?_, rfl, rfl, rfl, rfl⟩
  · refine ⟨fun h1 => ?_, fun h1 h2 => ?_, fun h1 h2 h3 => ?_, fun h1 h2 h3 => ?_⟩ <;>
      simp only [inferTypeFn]
    · rw [if_pos ((strIn_any_iff _ _).mpr h1)]
    · rw [if_neg (fun hc => h1 ((strIn_any_iff _ _).mp hc)),
        if_pos ((strIn_any_iff _ _).mpr h2)]
    · rw [if_neg (fun hc => h1 ((strIn_any_iff _ _).mp hc)),
        if_neg (fun hc => h2 ((strIn_any_iff _ _).mp hc)),
        if_pos ((strIn_any_iff _ _).mpr h3)]
    · rw [if_neg (fun hc => h1 ((strIn_any_iff _ _).mp hc)),
        if_neg (fun hc => h2 ((strIn_any_iff _ _).mp hc)),
        if_neg (fun hc => h3 ((strIn_any_iff _ _).mp hc))]
      split <;> rfl
  · cases v <;> simp_all [inferTypeFn, pyTypeOf]

/-- Witness for `c3_inference_amended` at concrete inputs. -/
theorem c3_inference_amended_witness :
    inferTypeFn (ofStr "--num-count") Value.none = PyType.int ∧
    inferTypeFn (ofStr "--x") (Value.float 1) = PyType.float :=
  ⟨(c3_inference_amended.1 (ofStr "--num-count")).1
      ⟨ofStr "count", by decide, ⟨ofStr "--num-", [], by decide⟩⟩,
    c3_inference_amended.2.1 (ofStr "--x") (Value.float 1) (fun h => nomatch h)⟩

/-- C10: when `required` is not supplied, the stored definition is
required exactly when the lowercased (normalized) flag name contains one
of the ten critical substrings. -/
theorem c10_auto_required (pfx name : Str) (kw : Kwargs)
    (hreq : kw.required = Option.none) :
    ((buildDef pfx name kw).required = true ↔
      ∃ w ∈ [ofStr "input", ofStr "file", ofStr "source", ofStr "target",
             ofStr "destination", ofStr "host", ofStr "server",
             ofStr "database", ofStr "username", ofStr "password"],
        w <:+: pyLower (normName name)) := by
  have : (buildDef pfx name kw).required = isRequiredArg (normName name) := by
    simp [buildDef, hreq]
  rw [this, isRequiredArg]
  exact strIn_any_iff _ _

/-- Witness for `c10_auto_required` at concrete inputs. -/
theorem c10_auto_required_witness :
    (buildDef [] (ofStr "db-host") noKwargs).required = true :=
  (c10_auto_required [] (ofStr "db-host") noKwargs rfl).mpr
    ⟨ofStr "host", by decide, ⟨ofStr "--db-", [], by decide⟩⟩

/-- C2 counterexample: with one missing-required definition (`--src`,
`required=True`, nothing supplies it) and one type-mismatched definition
(`--count` receives a JSON list from the config tier, unconvertible to
int), `parse_args` does *not* produce a two-entry ErrorReport: the
argparse layer enforces requiredness fail-fast and raises `SystemExit`
before `_validate_args` ever runs, so no report exists and the type
mismatch goes unreported. -/
theorem c2_missing_required_fail_fast_cex :
    parseArgs true
      [buildDef [] (ofStr "src")
        ⟨some PyType.str, Option.none, some true, Option.none, Option.none⟩,
       buildDef [] (ofStr "count") noKwargs]
      [(ofStr "--count", Value.list [])] [] [] =
      .tokenizerExit (.missingRequired [ofStr "--src"]) := rfl

/-- C2 (amended): validation itself is exhaustive, not fail-fast — two
definitions that are simultaneously invalid in ways `_validate_args` can
see (here one type-mismatched via an unconvertible config value, one
rejected by its validator) produce an ErrorReport with exactly two
entries, one per definition, in declaration order, whichever is declared
first.  MissingRequired, however, is enforced fail-fast by the argparse
layer before validation (see the counterexample), so only TypeMismatch
and ValidatorFailure are aggregated into the report. -/
theorem c2_exhaustive_validation_amended :
    parseArgs true
      [buildDef [] (ofStr "count") noKwargs,
       buildDef [] (ofStr "mode")
        ⟨Option.none, Option.none, Option.none, Option.none,
         some (fun _ => some (ofStr "no"))⟩]
      [(ofStr "--count", Value.list [])] [] [] =
      .validationExit
        [ofStr "--count: Expected int, got list", ofStr "--mode: no"] ∧
    parseArgs true
      [buildDef [] (ofStr "mode")
        ⟨Option.none, Option.none, Option.none, Option.none,
         some (fun _ => some (ofStr "no"))⟩,
       buildDef [] (ofStr "count") noKwargs]
      [(ofStr "--count", Value.list [])] [] [] =
      .validationExit
        [ofStr "--mode: no", ofStr "--count: Expected int, got list"] :=
  ⟨rfl, rfl⟩

/-- C4 counterexample: `_validate_args` does not leave the exit decision
to the outer CLI-facing caller — on a non-empty report it prints and
calls `sys.exit(1)` itself (the `Except.error` outcome models exactly
that `sys.exit(1)` branch at the end of `_validate_args`). -/
theorem c4_validate_exits_cex :
    validateArgsRun true
      [⟨ofStr "--x", PyType.str, some (Value.str []), false, ofStr "X",
        some (fun _ => some (ofStr "bad"))⟩]
      [(ofStr "x", Value.str [])] = Except.error [ofStr "--x: bad"] := rfl

/-- C4 (amended): validation never abandons a definition — it always
aggregates the complete report — but it does not return a non-empty
report to the caller: `_validate_args` returns normally exactly when the
aggregated report is empty, and otherwise itself terminates the process
with `sys.exit(1)` (carrying the full report).  Resolution
(`mergedDefault` and the tier loaders) is total and never exits. -/
theorem c4_validation_exit_amended :
    (∀ (u : Bool) (defs : List ArgDef) (ns : Namespace),
      validateArgsRun u defs ns = Except.ok (validateReport u defs ns).1 ∨
      validateArgsRun u defs ns = Except.error (validateReport u defs ns).2.1) ∧
    (∀ (u : Bool) (defs : List ArgDef) (ns : Namespace) (r : List Str),
      validateArgsRun u defs ns = Except.error r → r ≠ []) ∧
    (∀ (u : Bool) (defs : List ArgDef) (ns : Namespace) (ns' : Namespace),
      validateArgsRun u defs ns = Except.ok ns' →
      (validateReport u defs ns).2.1 = []) := by
  refine ⟨fun u defs ns => ?_, fun u defs ns r h => ?_, fun u defs ns ns' h => ?_⟩
  · by_cases hc : (validateReport u defs ns).2.1 = [] <;>
      simp [validateArgsRun, hc]
  · by_cases hc : (validateReport u defs ns).2.1 = [] <;>
      simp [validateArgsRun, hc] at h
    · exact h ▸ hc
  · by_cases hc : (validateReport u defs ns).2.1 = [] <;>
      simp [validateArgsRun, hc] at h
    exact hc

/-- Witness for `c4_validation_exit_amended` at a concrete input. -/
theorem c4_validation_exit_amended_witness :
    (validateReport true [] []).2.1 = [] :=
  c4_validation_exit_amended.2.2 true [] [] [] rfl

/-- The validator-call trace of one validation iteration: exactly one
invocation when a validator is present, none otherwise, and the argument
passed is the normalized (pre-retry) namespace value. -/
theorem validateOne_trace (u : Bool) (d : ArgDef) (ns : Namespace) :
    (validateOne u d ns).2.2 =
      match d.validator with
      | some _ => [(d.name, normPre u (nsGet ns (attrName d.name)))]
      | Option.none => [] := by
  cases hv : d.validator with
  | none => simp [validateOne, hv]
  | some f =>
    cases hm : f (normPre u (nsGet ns (attrName d.name))) <;>
      simp [validateOne, hv, hm]

/-- C7 counterexample: a validator that accepts exactly the coerced value
still reports a failure, because `_validate_args` passes the validator
the *pre*-retry value.  Here `--count` (int) receives `3.5` from the
config tier; the retry coerces it to `3` (second conjunct) and writes it
back, yet the validator — which accepts `3` — is handed `3.5` and its
failure lands in the report. -/
theorem c7_validator_pre_retry_cex :
    parseArgs true
      [buildDef [] (ofStr "count")
        ⟨Option.none, Option.none, Option.none, Option.none,
         some (fun v => match v with
           | .int 3 => Option.none
           | _ => some (ofStr "bad"))⟩]
      [(ofStr "--count", Value.float (mkRat 7 2))] [] [] =
      .validationExit [ofStr "--count: bad"] ∧
    pyConvert PyType.int (Value.float (mkRat 7 2)) = some (Value.int 3) :=
  ⟨rfl, rfl⟩

/-- C7 (amended): each `parse` invokes the validator exactly once per
definition that has one — the invocation trace lists exactly those
definitions, in order — and the value passed is the resolved value after
normalization but *before* the type-coercion retry; a reported failure is
appended verbatim as `"{name}: {message}"` after that definition's type
errors. -/
theorem c7_validator_amended :
    (∀ (u : Bool) (defs : List ArgDef) (ns : Namespace),
      ((validateReport u defs ns).2.2).map Prod.fst =
        (defs.filter (fun d => d.validator.isSome)).map (fun d => d.name)) ∧
    (∀ (u : Bool) (d : ArgDef) (ns : Namespace)
        (f : Value → Option Str), d.validator = some f →
      (validateOne u d ns).2.2 =
        [(d.name, normPre u (nsGet ns (attrName d.name)))] ∧
      ∀ msg, f (normPre u (nsGet ns (attrName d.name))) = some msg →
        ∃ typeErrs, (validateOne u d ns).2.1 =
          typeErrs ++ [d.name ++ ofStr ": " ++ msg]) := by
  constructor
  · intro u defs
    induction defs with
    | nil => intro ns; rfl
    | cons d rest ih =>
      intro ns
      simp only [validateReport, List.map_append, ih, List.filter_cons,
        validateOne_trace]
      cases hv : d.validator <;> simp
  · intro u d ns f hf
    refine ⟨by rw [validateOne_trace, hf], fun msg hmsg => ?_⟩
    refine ⟨(typeRetry d (normPre u (nsGet ns (attrName d.name)))
      (attrName d.name)
      (match nsGet ns (attrName d.name) with
        | .str _ => if u then nsSet ns (attrName d.name)
            (normPre u (nsGet ns (attrName d.name))) else ns
        | _ => ns)).2, ?_⟩
    simp only [validateOne, hf, hmsg]

/-- Looking a key up after mapping over the values. -/
theorem lookup_map_snd (k : Str) (f : CliVal → CliVal) (l : List (Str × CliVal)) :
    List.lookup k (l.map (fun p => (p.1, f p.2))) = (List.lookup k l).map f := by
  induction l with
  | nil => rfl
  | cons p rest ih =>
    by_cases h : k == p.1 <;> simp [List.lookup, h, ih]

/-- Overwriting the only binding of a one-entry namespace. -/
theorem nsSet_single (a : Str) (x v : Value) : nsSet [(a, x)] a v = [(a, v)] := by
  simp [nsSet]

/-- The outcome of `parse_args` on a single definition whose flag occurs
on the command line, as a function of that occurrence alone: the merged
config/env/declared default is overwritten before anything can observe
it. -/
def postCliResult (d : ArgDef) (cv : CliVal) : ParseResult :=
  let runVal : Value → ParseResult := fun v =>
    match validateArgsRun true [d] [(attrName d.name, v)] with
    | .ok ns => .ok ns
    | .error r => .validationExit r
  if d.type = PyType.bool then runVal (Value.bool true)
  else
    match cv with
    | .presence => .tokenizerExit (.expectedOneArg d.name)
    | .token s =>
      match convTok d.type s with
      | some v => runVal v
      | Option.none => .tokenizerExit (.badValue d.name s)

/-- A single-definition parse with the flag present on the command line
reduces to `postCliResult` — no dependence on config, env, or the
declared default remains. -/
theorem parseArgs_single_cli (d : ArgDef) (config : List (Str × Value))
    (env : List (Str × Str)) (cli : List (Str × CliVal)) (cv : CliVal)
    (hc : List.lookup d.name cli = some cv) :
    parseArgs true [d] config env cli = postCliResult d (elimCliVal true cv) := by
  have hl : List.lookup d.name
      (cli.map (fun p => (p.1, elimCliVal true p.2))) =
      some (elimCliVal true cv) := by
    rw [lookup_map_snd, hc]; rfl
  simp only [parseArgs, applyCli, finishDefaults, setDefaults, hl, postCliResult]
  by_cases hb : d.type = PyType.bool
  · simp only [hb, if_pos rfl, nsSet, nsSet_single]
    simp [applyCli, finishDefaults, hl]
  · simp only [if_neg hb]
    cases elimCliVal true cv with
    | presence => simp
    | token s =>
      cases hcv : convTok d.type s with
      | none => simp [hcv]
      | some v =>
        simp only [hcv, applyCli, hl]
        simp [finishDefaults, hl, nsSet, nsSet_single]

/-- C1: when a command-line value is present for a definition, the parse
outcome is a function of that command-line occurrence alone — the
declared default, the config-file tier and the environment tier (whether
present or not, convertible or not) are silently overridden.  In
particular, for an Integer definition with declared default, config value
and env value all present, the resolved value is the parsed command-line
token. -/
theorem c1_cli_tier_wins (d : ArgDef) (config : List (Str × Value))
    (env : List (Str × Str)) (cli : List (Str × CliVal)) (cv : CliVal)
    (hc : List.lookup d.name cli = some cv) :
    parseArgs true [d] config env cli = parseArgs true [d] [] [] cli ∧
    (∀ (V : Str) (n : Int), cv = CliVal.token V → d.type = PyType.int →
      d.validator = Option.none →
      pyIntOfStr (eliminateUnicode V) = some n →
      parseArgs true [d] config env cli = .ok [(attrName d.name, Value.int n)]) := by
  constructor
  · rw [parseArgs_single_cli d config env cli cv hc,
      parseArgs_single_cli d [] [] cli cv hc]
  · intro V n hV ht hv hparse
    have hb : ¬(d.type = PyType.bool) := by rw [ht]; exact fun h => PyType.noConfusion h
    have hcv : convTok d.type (eliminateUnicode V) = some (Value.int n) := by
      rw [ht]; simp [convTok, pyConvert, hparse]
    have hval : validateArgsRun true [d] [(attrName d.name, Value.int n)] =
        Except.ok [(attrName d.name, Value.int n)] := by
      simp [validateArgsRun, validateReport, validateOne, hv, nsGet, List.lookup,
        normPre, typeRetry, isNoneV, pyIsInstance, pyTypeOf, ht]
    rw [parseArgs_single_cli d config env cli cv hc, hV]
    simp [postCliResult, elimCliVal, hb, hcv, hval]

/-- Witness for `c1_cli_tier_wins` at a concrete input: declared default
`7`, config value `1`, env value `"2"`, command-line token `"42"` — the
resolved value is `42`. -/
theorem c1_cli_tier_wins_witness :
    parseArgs true
      [buildDef [] (ofStr "count")
        ⟨Option.none, some (Value.int 7), Option.none, Option.none, Option.none⟩]
      [(ofStr "--count", Value.int 1)]
      [(ofStr "_COUNT", ofStr "2")]
      [(ofStr "--count", CliVal.token (ofStr "42"))] =
      .ok [(attrName (buildDef [] (ofStr "count")
        ⟨Option.none, some (Value.int 7), Option.none, Option.none, Option.none⟩).name,
        Value.int 42)] :=
  (c1_cli_tier_wins
    (buildDef [] (ofStr "count")
      ⟨Option.none, some (Value.int 7), Option.none, Option.none, Option.none⟩)
    [(ofStr "--count", Value.int 1)]
    [(ofStr "_COUNT", ofStr "2")]
    [(ofStr "--count", CliVal.token (ofStr "42"))]
    (CliVal.token (ofStr "42")) rfl).2 (ofStr "42") 42 rfl rfl rfl rfl

/-- C8: the suggestion operation over an unknown flag: at most 3 results;
every result is a candidate with the `--` marker stripped for comparison,
similarity ratio at least 0.6 against the stripped unknown name, and the
marker reattached; results are ordered by non-increasing similarity; and
on known names {`--input`, `--output`, `--verbose`} with unknown flag
`--inut` the result is exactly `["--input"]`. -/
theorem c8_suggestion_engine :
    (∀ (arg : Str) (cands : List Str), (findSimilarArgs arg cands).length ≤ 3) ∧
    (∀ (arg : Str) (cands : List Str) (x : Str), x ∈ findSimilarArgs arg cands →
      ∃ c, x = ofStr "--" ++ c ∧ c ∈ cands.map stripDashes ∧
        mkRat 3 5 ≤ simScore (stripDashes arg) c) ∧
    (∀ (w : Str) (ps : List Str),
      (getCloseMatches w ps).Pairwise
        (fun x y => simScore w y ≤ simScore w x)) ∧
    findSimilarArgs (ofStr "--inut")
      [ofStr "--input", ofStr "--output", ofStr "--verbose"] =
      [ofStr "--input"] := by
  refine ⟨fun arg cands => ?_, fun arg cands x hx => ?_, fun w ps => ?_, rfl⟩
  · simp only [findSimilarArgs, List.length_map, getCloseMatches,
      List.length_take]
    exact min_le_left _ _
  · obtain ⟨c, hc, rfl⟩ := List.mem_map.mp hx
    have h0 : c ∈ ((cands.map stripDashes).filter
        (cutoffOK (stripDashes arg))).insertionSort (sugLe (stripDashes arg)) :=
      List.mem_of_mem_take hc
    have h1 := List.mem_filter.mp
      ((List.mem_insertionSort (sugLe (stripDashes arg))).mp h0)
    exact ⟨c, rfl, h1.1, of_decide_eq_true h1.2⟩
  · have hs : ((ps.filter (cutoffOK w)).insertionSort (sugLe w)).Pairwise
        (sugLe w) := List.sorted_insertionSort (sugLe w) _
    have ht : (getCloseMatches w ps).Pairwise (sugLe w) :=
      hs.sublist (List.take_sublist _ _)
    refine ht.imp (fun h => ?_)
    rcases (Prod.Lex.le_iff _ _).mp h with hlt | ⟨heq, _⟩
    · exact le_of_lt hlt
    · exact le_of_eq heq

/-- Witness for `c8_suggestion_engine` at a concrete input. -/
theorem c8_suggestion_engine_witness :
    ∃ c, ofStr "--input" = ofStr "--" ++ c ∧
      c ∈ ([ofStr "--input", ofStr "--output", ofStr "--verbose"].map stripDashes) ∧
      mkRat 3 5 ≤ simScore (stripDashes (ofStr "--inut")) c :=
  c8_suggestion_engine.2.1 (ofStr "--inut")
    [ofStr "--input", ofStr "--output", ofStr "--verbose"] (ofStr "--input")
    (by rw [c8_suggestion_engine.2.2.2]; exact List.mem_singleton.mpr rfl)

/-- When the caller supplied no `default`, `add_argument` stores the
smart (zero-value) default — except for booleans, which get none. -/
theorem buildDef_default_none (pfx name : Str) (kw : Kwargs)
    (hd : kw.default = Option.none) :
    (buildDef pfx name kw).default =
      if (buildDef pfx name kw).type = PyType.bool then Option.none
      else some (smartDefault (buildDef pfx name kw).type) := by
  simp [buildDef, hd]

/-- C5 counterexample: a Boolean definition with no declared default and
no tier providing a value resolves to `None`, not to the Boolean
zero-value `False` (`--quiet` infers Boolean; `add_argument` gives
booleans no smart default; argparse's `store_true` keeps the explicit
`default=None`; `_validate_args` skips `None` values). -/
theorem c5_bool_zero_value_cex :
    parseArgs true [buildDef [] (ofStr "quiet") noKwargs] [] [] [] =
      .ok [(ofStr "quiet", Value.none)] ∧
    Value.none ≠ Value.bool false :=
  ⟨rfl, fun h => Value.noConfusion h⟩

/-- C5 (amended): for a definition declared with no default (and no
validator) that no tier supplies: if not required, resolution yields the
zero-value for Integer (`0`), Float (`0.0`) and String (`""`) — but
`None` for Boolean — with no error; if required, parsing aborts with the
argparse layer's missing-required error naming the definition. -/
theorem c5_zero_value_amended (pfx name : Str) (kw : Kwargs)
    (hd : kw.default = Option.none) (hv : kw.validator = Option.none) :
    ((buildDef pfx name kw).required = false →
      ((buildDef pfx name kw).type = PyType.int →
        parseArgs true [buildDef pfx name kw] [] [] [] =
          .ok [(attrName (buildDef pfx name kw).name, Value.int 0)]) ∧
      ((buildDef pfx name kw).type = PyType.float →
        parseArgs true [buildDef pfx name kw] [] [] [] =
          .ok [(attrName (buildDef pfx name kw).name, Value.float 0)]) ∧
      ((buildDef pfx name kw).type = PyType.str →
        parseArgs true [buildDef pfx name kw] [] [] [] =
          .ok [(attrName (buildDef pfx name kw).name, Value.str [])]) ∧
      ((buildDef pfx name kw).type = PyType.bool →
        parseArgs true [buildDef pfx name kw] [] [] [] =
          .ok [(attrName (buildDef pfx name kw).name, Value.none)])) ∧
    ((buildDef pfx name kw).required = true →
      parseArgs true [buildDef pfx name kw] [] [] [] =
        .tokenizerExit (.missingRequired [(buildDef pfx name kw).name])) := by
  have hva : (buildDef pfx name kw).validator = Option.none := by
    simp [buildDef, hv]
  have hdd := buildDef_default_none pfx name kw hd
  constructor
  · intro hr
    refine ⟨fun ht => ?_, fun ht => ?_, fun ht => ?_, fun ht => ?_⟩ <;>
      rw [ht] at hdd <;> simp at hdd <;>
      simp [parseArgs, loadEnvDefaults, setDefaults, mergedDefault, applyCli,
        finishDefaults, List.lookup, hdd, ht, hr, validateArgsRun, validateReport,
        validateOne, hva, nsGet, normPre, typeRetry, isNoneV, pyIsInstance,
        pyTypeOf, nsSet, smartDefault, convTok, pyConvert, eliminateUnicode,
        collapseWs, collapseAux, pyStrip]
  · intro hr
    simp [parseArgs, loadEnvDefaults, setDefaults, mergedDefault, applyCli,
      finishDefaults, List.lookup, hr]

/-- Witness for `c5_zero_value_amended` at concrete inputs. -/
theorem c5_zero_value_amended_witness :
    parseArgs true [buildDef [] (ofStr "count") noKwargs] [] [] [] =
      .ok [(attrName (buildDef [] (ofStr "count") noKwargs).name, Value.int 0)] ∧
    parseArgs true [buildDef [] (ofStr "host") noKwargs] [] [] [] =
      .tokenizerExit (.missingRequired [(buildDef [] (ofStr "host") noKwargs).name]) :=
  ⟨((c5_zero_value_amended [] (ofStr "count") noKwargs rfl rfl).1 rfl).1 rfl,
    (c5_zero_value_amended [] (ofStr "host") noKwargs rfl rfl).2 rfl⟩

/-- Characters emitted by the whitespace collapse are the replacement
space or non-whitespace originals. -/
theorem mem_collapseAux : ∀ (b : Bool) (s : Str) (c : Nat),
    c ∈ collapseAux b s → c = 32 ∨ (c ∈ s ∧ isWsC c = false) := by
  intro b s
  induction s generalizing b with
  | nil => intro c hc; cases hc
  | cons a r ih =>
    intro c hc
    by_cases hw : isWsC a
    · cases b with
      | true =>
        simp only [collapseAux, if_pos hw] at hc
        rcases ih true c hc with h | ⟨h1, h2⟩
        · exact Or.inl h
        · exact Or.inr ⟨List.mem_cons_of_mem a h1, h2⟩
      | false =>
        simp only [collapseAux, if_pos hw] at hc
        rcases List.mem_cons.mp hc with h | h
        · exact Or.inl h
        · rcases ih true c h with h | ⟨h1, h2⟩
          · exact Or.inl h
          · exact Or.inr ⟨List.mem_cons_of_mem a h1, h2⟩
    · simp only [collapseAux, if_neg hw] at hc
      rcases List.mem_cons.mp hc with h | h
      · subst h
        exact Or.inr ⟨List.mem_cons_self _ _, by simpa using hw⟩
      · rcases ih false c h with h | ⟨h1, h2⟩
        · exact Or.inl h
        · exact Or.inr ⟨List.mem_cons_of_mem a h1, h2⟩

/-- After a replacement space was emitted the collapse never emits another
whitespace character first, and the collapsed string has no adjacent
whitespace. -/
theorem collapseAux_spec : ∀ s : Str,
    (∀ c, (collapseAux true s).head? = some c → isWsC c = false) ∧
    noAdjWs (collapseAux true s) ∧ noAdjWs (collapseAux false s) := by
  intro s
  induction s with
  | nil => exact ⟨fun _ hc => Option.noConfusion hc, List.chain'_nil, List.chain'_nil⟩
  | cons a r ih =>
    obtain ⟨ih1, ih2, ih3⟩ := ih
    by_cases hw : isWsC a
    · refine ⟨?_, ?_, ?_⟩ <;> simp only [collapseAux, if_pos hw]
      · exact ih1
      · exact ih2
      · refine List.chain'_cons'.mpr ⟨?_, ih2⟩
        intro y hy
        have := ih1 y hy
        simp [this]
    · have hhead : ∀ y ∈ (a :: collapseAux false r).tail.head?,
          ¬(isWsC a = true ∧ isWsC y = true) := by
        intro y _
        simp [hw]
      refine ⟨?_, ?_, ?_⟩ <;> simp only [collapseAux, if_neg hw]
      · intro c hc
        simp only [List.head?_cons, Option.some.injEq] at hc
        subst hc
        simpa using hw
      · exact List.chain'_cons'.mpr ⟨fun y _ => by simp [hw], ih3⟩
      · exact List.chain'_cons'.mpr ⟨fun y _ => by simp [hw], ih3⟩

/-- The head surviving `dropWhile` fails the predicate. -/
theorem head_dropWhile_false (p : Nat → Bool) : ∀ (l : Str) (c : Nat),
    (l.dropWhile p).head? = some c → p c = false := by
  intro l
  induction l with
  | nil => intro c hc; cases hc
  | cons a r ih =>
    intro c hc
    rw [List.dropWhile_cons] at hc
    by_cases hp : p a
    · rw [if_pos hp] at hc
      exact ih c hc
    · rw [if_neg hp] at hc
      simp only [List.head?_cons, Option.some.injEq] at hc
      subst hc
      simpa using hp

/-- `strip` only removes characters. -/
theorem pyStrip_sublist (s : Str) : List.Sublist (pyStrip s) s := by
  have h1 : List.Sublist (s.dropWhile isWsC) s :=
    (List.dropWhile_suffix isWsC).sublist
  have h2 : List.Sublist ((s.dropWhile isWsC).reverse.dropWhile isWsC)
      (s.dropWhile isWsC).reverse := (List.dropWhile_suffix isWsC).sublist
  have h3 := h2.reverse
  rw [List.reverse_reverse] at h3
  exact h3.trans h1

/-- The collapse relation is symmetric, so chains survive reversal. -/
theorem noAdjWs_reverse {s : Str} (h : noAdjWs s) : noAdjWs s.reverse := by
  refine List.chain'_reverse.mpr (h.imp ?_)
  intro a b hab
  simp only [flip]
  exact fun hc => hab ⟨hc.2, hc.1⟩

/-- `strip` preserves the no-adjacent-whitespace invariant. -/
theorem noAdjWs_pyStrip {s : Str} (h : noAdjWs s) : noAdjWs (pyStrip s) := by
  have h1 : noAdjWs (s.dropWhile isWsC) := h.suffix (List.dropWhile_suffix isWsC)
  have h2 : noAdjWs ((s.dropWhile isWsC).reverse.dropWhile isWsC) :=
    (noAdjWs_reverse h1).suffix (List.dropWhile_suffix isWsC)
  exact noAdjWs_reverse h2

/-- After `strip`, the string neither starts nor ends with whitespace. -/
theorem pyStrip_ends (s : Str) : headOkWs (pyStrip s) ∧ lastOkWs (pyStrip s) := by
  constructor
  · intro c hc
    rw [pyStrip, List.head?_reverse] at hc
    obtain ⟨pre, hpre⟩ :=
      @List.dropWhile_suffix Nat (s.dropWhile isWsC).reverse isWsC
    have h2 : (s.dropWhile isWsC).reverse.getLast? = some c := by
      rw [← hpre, List.getLast?_append, hc]
      rfl
    rw [List.getLast?_reverse] at h2
    exact head_dropWhile_false isWsC _ c h2
  · intro c hc
    rw [pyStrip, List.getLast?_reverse] at hc
    exact head_dropWhile_false isWsC _ c hc

/-- On an already-collapsed string (single spaces only, none adjacent)
the collapse is the identity. -/
theorem collapseAux_fix : ∀ s : Str, noAdjWs s → wsOnly32 s →
    collapseAux false s = s ∧ (headOkWs s → collapseAux true s = s) := by
  intro s
  induction s with
  | nil => exact fun _ _ => ⟨rfl, fun _ => rfl⟩
  | cons a r ih =>
    intro hn hw
    have hnr : noAdjWs r := (List.chain'_cons'.mp hn).2
    have hwr : wsOnly32 r := fun c hc => hw c (List.mem_cons_of_mem a hc)
    by_cases hwa : isWsC a
    · have ha32 : a = 32 := hw a (List.mem_cons_self a r) hwa
      have hrhead : headOkWs r := by
        intro c hc
        have := (List.chain'_cons'.mp hn).1 c hc
        by_cases h : isWsC c
        · exact absurd ⟨hwa, h⟩ this
        · simpa using h
      have hr := (ih hnr hwr).2 hrhead
      constructor
      · simp only [collapseAux, if_pos hwa, hr]
        simp [ha32]
      · intro hh
        have := hh a rfl
        rw [hwa] at this
        exact Bool.noConfusion this
    · have hr := (ih hnr hwr).1
      refine ⟨?_, fun _ => ?_⟩ <;> simp only [collapseAux, if_neg hwa, hr]

/-- A string whose head is not whitespace is untouched by the leading
strip. -/
theorem dropWhile_ws_fix {s : Str} (h : headOkWs s) : s.dropWhile isWsC = s := by
  cases s with
  | nil => rfl
  | cons a r =>
    rw [List.dropWhile_cons, if_neg]
    rw [h a rfl]
    exact fun hc => Bool.noConfusion hc

/-- A string with no leading and no trailing whitespace is untouched by
`strip`. -/
theorem pyStrip_fix {s : Str} (hh : headOkWs s) (hl : lastOkWs s) :
    pyStrip s = s := by
  rw [pyStrip, dropWhile_ws_fix hh, dropWhile_ws_fix, List.reverse_reverse]
  intro c hc
  rw [List.head?_reverse] at hc
  exact hl c hc

/-- No ASCII code point is in the emoji-pattern character class. -/
theorem ascii_not_emoji {c : Nat} (h : c < 128) : isEmojiC c = false := by
  simp only [isEmojiC, Bool.or_eq_false_iff, Bool.and_eq_false_iff,
    decide_eq_false_iff_not, not_le, beq_eq_false_iff_ne, ne_eq]
  omega

/-- ASCII code points are NFKD-invariant. -/
theorem ascii_nfkd {c : Nat} (h : c < 128) : nfkdC c = [c] := by
  rw [nfkdC, if_pos h]

/-- NFKD decomposition is the identity on all-ASCII strings. -/
theorem flatMap_nfkd_fix {s : Str} (h : allAscii s) : s.flatMap nfkdC = s := by
  induction s with
  | nil => rfl
  | cons a r ih =>
    rw [List.flatMap_cons, ascii_nfkd (h a (List.mem_cons_self a r)),
      ih (fun c hc => h c (List.mem_cons_of_mem a hc))]
    rfl

/-- The output of `eliminate_unicode` is ASCII, uses only plain spaces as
whitespace, has no adjacent whitespace, and neither starts nor ends with
whitespace. -/
theorem eliminateUnicode_props (s : Str) :
    allAscii (eliminateUnicode s) ∧ wsOnly32 (eliminateUnicode s) ∧
    noAdjWs (eliminateUnicode s) ∧ headOkWs (eliminateUnicode s) ∧
    lastOkWs (eliminateUnicode s) := by
  have hascii : allAscii (((s.filter (fun c => !(isEmojiC c))).flatMap
      nfkdC).filter (fun c => decide (c < 128))) := by
    intro c hc
    exact of_decide_eq_true ((List.mem_filter.mp hc).2)
  have hcoll := mem_collapseAux false (((s.filter (fun c => !(isEmojiC c))).flatMap
      nfkdC).filter (fun c => decide (c < 128)))
  have hsub := pyStrip_sublist (collapseWs
    (((s.filter (fun c => !(isEmojiC c))).flatMap nfkdC).filter
      (fun c => decide (c < 128))))
  refine ⟨?_, ?_, ?_, (pyStrip_ends _).1, (pyStrip_ends _).2⟩
  · intro c hc
    rcases hcoll c (hsub.subset hc) with h | ⟨h1, _⟩
    · omega
    · exact hascii c h1
  · intro c hc hw
    rcases hcoll c (hsub.subset hc) with h | ⟨_, h2⟩
    · exact h
    · rw [hw] at h2; exact Bool.noConfusion h2
  · exact noAdjWs_pyStrip (collapseAux_spec _).2.2

/-- C9: text normalization is idempotent — `eliminate_unicode` applied to
its own output returns that output unchanged, for every string. -/
theorem c9_normalize_idempotent (s : Str) :
    eliminateUnicode (eliminateUnicode s) = eliminateUnicode s := by
  obtain ⟨ha, hw, hn, hh, hl⟩ := eliminateUnicode_props s
  have h1 : (eliminateUnicode s).filter (fun c => !(isEmojiC c)) =
      eliminateUnicode s :=
    List.filter_eq_self.mpr (fun c hc => by
      rw [ascii_not_emoji (ha c hc)]; rfl)
  have h3 : (eliminateUnicode s).filter (fun c => decide (c < 128)) =
      eliminateUnicode s :=
    List.filter_eq_self.mpr (fun c hc => decide_eq_true (ha c hc))
  conv_lhs => rw [eliminateUnicode]
  rw [h1, flatMap_nfkd_fix ha, h3]
  rw [show collapseWs (eliminateUnicode s) = eliminateUnicode s from
    (collapseAux_fix _ hn hw).1]
  exact pyStrip_fix hh hl

/-- Witness for `c7_validator_amended` at a concrete input. -/
theorem c7_validator_amended_witness :
    (validateOne true
      ⟨ofStr "--n", PyType.int, some (Value.int 0), false, ofStr "N",
       some (fun _ => some (ofStr "m"))⟩
      [(ofStr "n", Value.int 5)]).2.2 = [(ofStr "--n", Value.int 5)] :=
  (c7_validator_amended.2 true
    ⟨ofStr "--n", PyType.int, some (Value.int 0), false, ofStr "N",
     some (fun _ => some (ofStr "m"))⟩
    [(ofStr "n", Value.int 5)] (fun _ => some (ofStr "m")) rfl).1

end ArgParser
